import Mathlib

/-!
Verification of the cbs build-orchestrator core (src/core.rs, src/context.rs,
src/cargo.rs) against its natural-language specification.

The Rust code is shallowly embedded: pure functions become Lean functions,
machine integers become `Nat` with explicit `% 2^w` where overflow matters,
fallible operations return `Option`/`Except`, filesystem reads are passed in
as explicit data.  Hash maps and hash sets from the Rust standard library are
modelled as association lists / duplicate-free lists; where the Rust iteration
order of a `HashSet` is unspecified, the model fixes first-insertion order and
no theorem below depends on the order chosen inside such a block.
-/

set_option autoImplicit false

namespace Cbs

/-! ## String scaffolding

String literals used by the embedded code, bound to names, and character-list
implementations of the string operations the Rust code performs (byte slicing
on ASCII data, prefix tests, splitting).  All of them are structurally
recursive so that concrete runs reduce inside `decide`/`rfl`.
-/

def kwUnix : String := "unix"

def kwCfgHead : String := "cfg("

def kwTarget : String := "target"

def kwDependencies : String := "dependencies"

def kwOptional : String := "optional"

def kwFeatures : String := "features"

def kwDepColon : String := "dep:"

def kwCargoScheme : String := "cargo://"

def kwRustPlugin : String := "@rust_plugin"

def kwRustCompiler : String := "@rust_compiler"

/-- Modelled from the spec: the fixed `kind` classification string produced by
the cargo resolver (`PluginKind::RustLibrary.to_string()`; the `plugins`
module is not part of the sources under verification, and no claim depends on
the concrete value). -/
def kwRustLibraryKind : String := "rust_library"

def kwResolve : String := "resolve"

def kwBuild : String := "build"

def kwScratch : String := "scratch"

def dashStr : String := "-"

def emptyStr : String := ""

/-- Prefix test on character lists: `listStarts s p` is true when `p` is an
initial segment of `s` (model of Rust `str::starts_with`). -/
def listStarts : List Char → List Char → Bool
  | _, [] => true
  | [], _ :: _ => false
  | c :: cs, p :: ps => c == p && listStarts cs ps

/-- Model of Rust `str::starts_with` for the ASCII strings the resolver
handles. -/
def strStarts (s pat : String) : Bool :=
  listStarts s.data pat.data

/-- Model of Rust byte slicing `&s[n..]` on ASCII data. -/
def strDrop (s : String) (n : Nat) : String :=
  String.mk (s.data.drop n)

/-- Model of Rust `&k[4..k.len() - 1]`: strip the `cfg(` head and the closing
parenthesis of a conditional key. -/
def cfgInner (k : String) : String :=
  String.mk ((k.data.drop 4).dropLast)

/-- Splitting a character list at commas; mirrors Rust `str::split(",")`,
which always yields at least one (possibly empty) piece. -/
def splitCommaChars : List Char → List (List Char)
  | [] => [[]]
  | c :: rest =>
    let r := splitCommaChars rest
    if c == ',' then [] :: r
    else (c :: r.headD []) :: r.tail

/-- Model of Rust `str::contains('/')`. -/
def strHasSlash (s : String) : Bool :=
  s.data.contains '/'

/-- Sanitization used for cache paths: `name.replace(&[':', '/', '@'], "_")`
(src/context.rs, `to_dir`). -/
def to_dir (name : String) : String :=
  String.mk (name.data.map (fun ch => if ch == ':' || ch == '/' || ch == '@' then '_' else ch))

/-! ## Lowercase hexadecimal rendering of a `u64`

Model of Rust's `{:x}` formatting, used by the cache path functions.  The
digit expansion uses explicit fuel so that it is structurally recursive and
kernel-reducible.
-/

def hexDigitChar (d : Nat) : Char :=
  if d < 10 then Char.ofNat (48 + d) else Char.ofNat (87 + d)

/-- Little-endian base-16 digit expansion, with fuel.  `hexAux fuel n` is the
digit list of `n` whenever `n ≤ fuel`. -/
def hexAux : Nat → Nat → List Nat
  | 0, _ => []
  | _ + 1, 0 => []
  | fuel + 1, m + 1 => (m + 1) % 16 :: hexAux fuel ((m + 1) / 16)

def hexDigitsLE (n : Nat) : List Nat :=
  hexAux n n

/-- Model of Rust `format!("{:x}", n)` (lowercase hex, no leading zeros,
`"0"` for zero). -/
def hexStr (n : Nat) : String :=
  if n = 0 then String.mk ['0']
  else String.mk (((hexDigitsLE n).map hexDigitChar).reverse)

/-- Inverse used to prove injectivity of the hex rendering. -/
def unhexLE (l : List Nat) : Nat :=
  l.foldr (fun d acc => d + 16 * acc) 0

def charToDigit (c : Char) : Nat :=
  if 97 ≤ c.toNat then c.toNat - 87 else c.toNat - 48

/-! ## Data model (src/core.rs)

`Context` keeps every data-carrying field of the Rust struct.  `actions` (a
field-less handle to side-effecting operations) is omitted; `start_time` is
modelled as a number, the shared log store as an association list.  Paths are
modelled as lists of components (`PathBuf::join` is list append).
-/

inductive BuildConfigKey where
  | TargetFamily
  | TargetEnv
  | TargetOS
deriving DecidableEq, Repr

structure Context where
  start_time : Nat
  lockfile : List (String × String)
  cache_dir : List String
  target : Option String
  target_hash : Option Nat
  logs : List (String × List String)
  config : List (BuildConfigKey × String)
  hash : Nat
deriving Repr

structure Config where
  dependencies : List String
  build_plugin : String
  location : Option String
  sources : List String
  build_dependencies : List String
  kind : String
  extras : List (Nat × List String)
  hash : Nat
deriving DecidableEq, Repr

def ConfigExtraKeys.Features : Nat := 0

structure BuildOutput where
  outputs : List String
  extras : List (Nat × List String)
deriving DecidableEq, Repr

inductive BuildResult where
  | Success (o : BuildOutput)
  | Failure (msg : String)
deriving DecidableEq, Repr

structure Task where
  id : Nat
  dependencies : List Nat
  target : String
  config : Option Config
  result : Option BuildResult
  available : Bool
  dependencies_ready : Nat
deriving Repr

inductive TaskStatus where
  | Resolving
  | Blocked
  | Building
  | Done
deriving DecidableEq, Repr

/-! ## Context operations (src/context.rs) -/

def Context.get_config (c : Context) (key : BuildConfigKey) : Option String :=
  List.lookup key c.config

/-- `get_locked_version`: `none` models the `NotFound` error of the Rust
version. -/
def Context.get_locked_version (c : Context) (target : String) : Option String :=
  List.lookup target c.lockfile

def Context.with_target (c : Context) (target : String) : Context :=
  { c with target := some target }

/-- `scratch_dir` (src/context.rs lines 94-113).  The `(None, Some _)` arm of
the Rust match panics; the model returns `none` there. -/
def Context.scratch_dir (c : Context) : Option (List String) :=
  match c.target, c.target_hash with
  | some t, none =>
    some (c.cache_dir ++ [kwResolve, kwScratch, to_dir t ++ dashStr ++ ((c.get_locked_version t).getD emptyStr)])
  | some t, some h =>
    some (c.cache_dir ++ [kwBuild, kwScratch, to_dir t ++ dashStr ++ hexStr h])
  | none, none => some c.cache_dir
  | none, some _ => none

/-- `working_directory` (src/context.rs lines 115-132). -/
def Context.working_directory (c : Context) : Option (List String) :=
  match c.target, c.target_hash with
  | some t, none =>
    some (c.cache_dir ++ [kwResolve, to_dir t ++ dashStr ++ ((c.get_locked_version t).getD emptyStr)])
  | some t, some h =>
    some (c.cache_dir ++ [kwBuild, to_dir t ++ dashStr ++ hexStr h])
  | none, none => some c.cache_dir
  | none, some _ => none

/-! ## Task status and BuildResult merging (src/core.rs) -/

/-- `Task::status` (src/core.rs lines 183-201), with the Rust `if` cascade
kept verbatim, including the final redundant `result.is_none()` test. -/
def Task.status (t : Task) : TaskStatus :=
  if t.result.isSome then TaskStatus.Done
  else if t.config.isNone then TaskStatus.Resolving
  else if t.dependencies_ready < t.dependencies.length then TaskStatus.Blocked
  else if t.result.isNone then TaskStatus.Building
  else TaskStatus.Done

/-- Accumulator loop of `BuildResult::merged` (src/core.rs lines 70-84). -/
def mergedAux (outs : List String) : List BuildResult → BuildResult
  | [] => BuildResult.Success { outputs := outs, extras := [] }
  | BuildResult.Success o :: rest => mergedAux (outs ++ o.outputs) rest
  | BuildResult.Failure m :: _ => BuildResult.Failure m

def BuildResult.merged (results : List BuildResult) : BuildResult :=
  mergedAux [] results

def BuildResult.isFailure : BuildResult → Bool
  | BuildResult.Failure _ => true
  | BuildResult.Success _ => false

def BuildResult.outputsOf : BuildResult → List String
  | BuildResult.Success o => o.outputs
  | BuildResult.Failure _ => []

/-! ## SHA-256 (the `sha2` crate dependency, embedded concretely)

Bytes are `Nat`s below 256, 32-bit words are `Nat`s reduced mod `2^32`.
The claims only use the digest as an opaque-but-executable function; no
theorem depends on its internals.
-/

def mod32 (x : Nat) : Nat := x % 4294967296

def sum32 (a b : Nat) : Nat := (a + b) % 4294967296

def rotr32 (r x : Nat) : Nat := mod32 ((x >>> r) ||| (x <<< (32 - r)))

def ssig0 (x : Nat) : Nat := (rotr32 7 x) ^^^ (rotr32 18 x) ^^^ (x >>> 3)

def ssig1 (x : Nat) : Nat := (rotr32 17 x) ^^^ (rotr32 19 x) ^^^ (x >>> 10)

def bsig0 (x : Nat) : Nat := (rotr32 2 x) ^^^ (rotr32 13 x) ^^^ (rotr32 22 x)

def bsig1 (x : Nat) : Nat := (rotr32 6 x) ^^^ (rotr32 11 x) ^^^ (rotr32 25 x)

def chf (e f g : Nat) : Nat := (e &&& f) ^^^ ((e ^^^ 4294967295) &&& g)

def majf (a b c : Nat) : Nat := (a &&& b) ^^^ (a &&& c) ^^^ (b &&& c)

def k256 : List Nat :=
  [1116352408, 1899447441, 3049323471, 3921009573, 961987163, 1508970993,
   2453635748, 2870763221, 3624381080, 310598401, 607225278, 1426881987,
   1925078388, 2162078206, 2614888103, 3248222580, 3835390401, 4022224774,
   264347078, 604807628, 770255983, 1249150122, 1555081692, 1996064986,
   2554220882, 2821834349, 2952996808, 3210313671, 3336571891, 3584528711,
   113926993, 338241895, 666307205, 773529912, 1294757372, 1396182291,
   1695183700, 1986661051, 2177026350, 2456956037, 2730485921, 2820302411,
   3259730800, 3345764771, 3516065817, 3600352804, 4094571909, 275423344,
   430227734, 506948616, 659060556, 883997877, 958139571, 1322822218,
   1537002063, 1747873779, 1955562222, 2024104815, 2227730452, 2361852424,
   2428436474, 2756734187, 3204031479, 3329325298]

def h256init : List Nat :=
  [1779033703, 3144134277, 1013904242, 2773480762, 1359893119, 2600822924,
   528734635, 1541459225]

def beBytes8 (n : Nat) : List Nat :=
  [(n >>> 56) % 256, (n >>> 48) % 256, (n >>> 40) % 256, (n >>> 32) % 256,
   (n >>> 24) % 256, (n >>> 16) % 256, (n >>> 8) % 256, n % 256]

def beBytes4 (n : Nat) : List Nat :=
  [(n >>> 24) % 256, (n >>> 16) % 256, (n >>> 8) % 256, n % 256]

def wordOfBytes (l : List Nat) (i : Nat) : Nat :=
  (l.getD (4 * i) 0) * 16777216 + (l.getD (4 * i + 1) 0) * 65536 +
    (l.getD (4 * i + 2) 0) * 256 + l.getD (4 * i + 3) 0

def blockWords (block : List Nat) : List Nat :=
  (List.range 16).map (wordOfBytes block)

def schedNext (w : List Nat) : Nat :=
  let n := w.length
  sum32 (sum32 (ssig1 (w.getD (n - 2) 0)) (w.getD (n - 7) 0))
    (sum32 (ssig0 (w.getD (n - 15) 0)) (w.getD (n - 16) 0))

def schedule (ws : List Nat) : List Nat :=
  (List.range 48).foldl (fun w _ => w ++ [schedNext w]) ws

def round256 (st : List Nat) (kw : Nat × Nat) : List Nat :=
  let a := st.getD 0 0
  let b := st.getD 1 0
  let c := st.getD 2 0
  let d := st.getD 3 0
  let e := st.getD 4 0
  let f := st.getD 5 0
  let g := st.getD 6 0
  let h := st.getD 7 0
  let t1 := sum32 h (sum32 (bsig1 e) (sum32 (chf e f g) (sum32 kw.1 kw.2)))
  let t2 := sum32 (bsig0 a) (majf a b c)
  [sum32 t1 t2, a, b, c, sum32 d t1, e, f, g]

def compress (h : List Nat) (block : List Nat) : List Nat :=
  let st := ((k256.zip (schedule (blockWords block))).foldl round256 h)
  (h.zip st).map (fun p => sum32 p.1 p.2)

def padMessage (msg : List Nat) : List Nat :=
  let len := msg.length
  let zeros := (64 - ((len + 9) % 64)) % 64
  msg ++ [0x80] ++ List.replicate zeros 0 ++ beBytes8 (len * 8)

/-- Chop a byte list into 64-byte blocks (fuel-structural). -/
def chunks64Aux : Nat → List Nat → List (List Nat)
  | 0, _ => []
  | _ + 1, [] => []
  | fuel + 1, l => l.take 64 :: chunks64Aux fuel (l.drop 64)

def sha256 (msg : List Nat) : List Nat :=
  let padded := padMessage msg
  (((chunks64Aux padded.length padded).foldl compress h256init).map beBytes4).flatten

/-- Big-endian `u64` of the first eight bytes of a digest
(`u64::from_be_bytes(digest[..8])`). -/
def u64be (bytes : List Nat) : Nat :=
  bytes.foldl (fun acc b => acc * 256 + b) 0

/-! ## Config hashing (src/core.rs, `Config::calculate_hash`)

File reads are passed in as data: a source path maps to either an open
failure or a finite trace of read-call outcomes (`read` returning an error,
or returning a chunk of bytes, where an empty chunk is the `Ok(0)` that ends
the loop).  An exhausted trace is treated as end of file.  A read error makes
the loop feed the sentinel and call `read` again on the same reader — the
retry consumes the next event of the same file's trace, never advances to the
next file, and never aborts.
-/

inductive ReadEvent where
  | err
  | chunk (bytes : List Nat)

inductive FileAccess where
  | openErr
  | file (events : List ReadEvent)

def readLoop : List ReadEvent → List Nat
  | [] => []
  | ReadEvent.err :: rest => [0x56, 0x78] ++ readLoop rest
  | ReadEvent.chunk [] :: _ => []
  | ReadEvent.chunk bs :: rest => bs ++ readLoop rest

def fileBytes : FileAccess → List Nat
  | FileAccess.openErr => [0x12, 0x34]
  | FileAccess.file evs => readLoop evs

def sourcesBytes (sources : List String) (fs : String → FileAccess) : List Nat :=
  sources.flatMap (fun s => fileBytes (fs s))

/-- `Config::calculate_hash` (src/core.rs lines 112-148): returns the computed
hash together with the updated config (the Rust method mutates `self.hash`
and returns it). -/
def Config.calculate_hash (c : Config) (context_hash deps_hash : Nat)
    (fs : String → FileAccess) : Nat × Config :=
  let transcript := beBytes8 context_hash ++ beBytes8 deps_hash ++ sourcesBytes c.sources fs
  let h := u64be (List.take 8 (sha256 transcript))
  (h, { c with hash := h })

/-! ## Manifest model and the cargo resolver (src/cargo.rs)

A parsed TOML document (the foreign `toml` crate's value type); tables are
association lists of unique keys.  `parse_cargo_toml` in the source reads and
parses a file before walking the document; the embedding receives the already
parsed table, which is the state of the computation after the foreign parser
succeeded — the claims under verification are all about the walk.
-/

inductive Toml where
  | str (s : String)
  | boolean (b : Bool)
  | int (n : Int)
  | table (entries : List (String × Toml))
  | arr (elems : List Toml)

def tomlLookup : List (String × Toml) → String → Option Toml
  | [], _ => none
  | (k, v) :: rest, key => if k == key then some v else tomlLookup rest key

def tomlStrVal : Toml → Option String
  | Toml.str s => some s
  | _ => none

/-- `parse_lockstring` (src/cargo.rs lines 39-44): first comma field is the
version, the rest are the enabled features. -/
def parse_lockstring (l : String) : String × List String :=
  match (splitCommaChars l.data).map String.mk with
  | [] => (emptyStr, [])
  | v :: rest => (v, rest)

/-- `resolve_cfg_directive` (src/cargo.rs lines 158-163): recognizes only the
directive `unix` against the `TargetFamily` configuration key; everything
else resolves to `Ok(false)`. -/
def resolve_cfg_directive (context : Context) (directive : String) : Except String Bool :=
  if directive == kwUnix && context.get_config BuildConfigKey.TargetFamily == some kwUnix then
    Except.ok true
  else
    Except.ok false

/-- Nested `dependencies` table of one `[target.<key>]` value, when present
(src/cargo.rs lines 78-83). -/
def tableDepsOf : Toml → Option (List (String × Toml))
  | Toml.table t =>
    match tomlLookup t kwDependencies with
    | some (Toml.table d) => some d
    | _ => none
  | _ => none

/-- The `filter_map` closure over the entries of the `[target]` table
(src/cargo.rs lines 71-84): keys of the form `cfg(...)` are gated by
`resolve_cfg_directive` (an error or `false` drops the entry); any other key
falls through to the nested `dependencies` lookup unconditionally. -/
def targetEntryDeps (context : Context) (k : String) (v : Toml) : Option (List (String × Toml)) :=
  if strStarts k kwCfgHead then
    match (resolve_cfg_directive context (cfgInner k)).toOption with
    | none => none
    | some b => if b then tableDepsOf v else none
  else
    tableDepsOf v

/-- Entries of the top-level `[target]` table, when it is a table
(src/cargo.rs lines 61-70). -/
def targetTables (table : List (String × Toml)) : List (String × Toml) :=
  match tomlLookup table kwTarget with
  | some (Toml.table t) => t
  | _ => []

def targetDepsEntries (context : Context) (table : List (String × Toml)) : List (String × Toml) :=
  (targetTables table).flatMap (fun kv => (targetEntryDeps context kv.1 kv.2).getD [])

/-- Entries of the top-level `[dependencies]` table, when it is a table
(src/cargo.rs lines 86-95). -/
def depsTableEntries (table : List (String × Toml)) : List (String × Toml) :=
  match tomlLookup table kwDependencies with
  | some (Toml.table t) => t
  | _ => []

/-- A dependency-table value explicitly marked `optional = true`
(src/cargo.rs lines 100-105). -/
def isOptionalDep : Toml → Bool
  | Toml.table t =>
    match tomlLookup t kwOptional with
    | some (Toml.boolean true) => true
    | _ => false
  | _ => false

/-- The mandatory-dependency loop (src/cargo.rs lines 98-108): keep the key
of every entry not marked optional. -/
def mandatoryDepNames (entries : List (String × Toml)) : List String :=
  (entries.filter (fun kv => !(isOptionalDep kv.2))).map (fun kv => kv.1)

/-- Declared feature names: the keys of the `[features]` table
(src/cargo.rs lines 110-115). -/
def declaredFeatures (table : List (String × Toml)) : List String :=
  match tomlLookup table kwFeatures with
  | some (Toml.table t) => t.map (fun kv => kv.1)
  | _ => []

/-- Set insertion for the `optional_deps` `HashSet`, modelled as a
duplicate-free list in first-insertion order. -/
def insertNew (acc : List String) (s : String) : List String :=
  if acc.contains s then acc else acc ++ [s]

/-- Classification of one requirement entry of an enabled feature
(src/cargo.rs lines 124-147): `dep:`-stripped names are inserted directly; an
entry naming a declared feature or containing a slash is skipped; anything
else is inserted as an optional dependency name. -/
def featureEntryStep (allF : List String) (acc : List String) (dep : Toml) : List String :=
  match dep with
  | Toml.str dname =>
    if strStarts dname kwDepColon then insertNew acc (strDrop dname 4)
    else if allF.contains dname then acc
    else if strHasSlash dname then acc
    else insertNew acc dname
  | _ => acc

/-- The optional-dependency walk over the `[features]` table
(src/cargo.rs lines 117-150): only features present in the enabled list
contribute, and only their array-valued entries are walked. -/
def featureOptionalDeps (table : List (String × Toml)) (features : List String) : List String :=
  match tomlLookup table kwFeatures with
  | some (Toml.table t) =>
    t.foldl
      (fun acc kv =>
        if features.contains kv.1 then
          match kv.2 with
          | Toml.arr deps => deps.foldl (featureEntryStep (declaredFeatures table)) acc
          | _ => acc
        else acc)
      []
  | _ => []

def arrElems : Toml → List Toml
  | Toml.arr l => l
  | _ => []

def featuresTableEntries (table : List (String × Toml)) : List (String × Toml) :=
  match tomlLookup table kwFeatures with
  | some (Toml.table t) => t
  | _ => []

/-- The requirement entries actually walked by the optional-dependency loop:
array elements of every enabled feature, in table order. -/
def enabledEntries (table : List (String × Toml)) (features : List String) : List Toml :=
  (featuresTableEntries table).flatMap
    (fun kv => if features.contains kv.1 then arrElems kv.2 else [])

/-- Specification of what one walked requirement entry may contribute to the
optional-dependency set: a `dep:`-prefixed string entry contributes its
stripped remainder, and a string entry that is neither `dep:`-prefixed, nor a
declared feature name, nor slash-containing contributes itself; nothing else
contributes anything. -/
def entryYields (declared : List String) (dep : Toml) (s : String) : Prop :=
  ∃ dname, dep = Toml.str dname ∧
    ((strStarts dname kwDepColon = true ∧ s = strDrop dname 4) ∨
     (strStarts dname kwDepColon = false ∧ declared.contains dname = false ∧
      strHasSlash dname = false ∧ s = dname))

structure CargoToml where
  dependencies : List String

/-- `parse_cargo_toml` (src/cargo.rs lines 51-155), applied to the parsed
document: mandatory names from the top-level table chained with the gated
target tables, then the deduplicated optional names appended. -/
def parse_cargo_toml (context : Context) (table : List (String × Toml))
    (features : List String) : CargoToml :=
  { dependencies :=
      mandatoryDepNames (depsTableEntries table ++ targetDepsEntries context table) ++
        featureOptionalDeps table features }

/-- Model of `target.strip_prefix("cargo://")`. -/
def stripCargoScheme (target : String) : Option String :=
  if strStarts target kwCargoScheme then some (strDrop target 8) else none

def errInvalidTarget : String := "invalid target name"

def errNoLockEntry : String := "does not have a lockfile entry!"

/-- `CargoResolver::resolve` (src/cargo.rs lines 170-242).  The download and
unpack actions and the source-file enumeration are I/O; the embedding
receives their outcome: the parsed manifest of the unpacked crate and the
enumerated `.rs` file paths.  Everything after those steps is transcribed
verbatim, including the literal placeholder written into `hash`. -/
def CargoResolver.resolve (context : Context) (target : String)
    (manifest : List (String × Toml)) (rust_files : List String) : Except String Config :=
  match stripCargoScheme target with
  | none => Except.error errInvalidTarget
  | some _crate_name =>
    match context.get_locked_version target with
    | none => Except.error errNoLockEntry
    | some lockstring =>
      let vf := parse_lockstring lockstring
      let features := vf.2
      let extras := [(ConfigExtraKeys.Features, features)]
      let toml := parse_cargo_toml context manifest features
      Except.ok
        { dependencies := toml.dependencies.map (fun d => kwCargoScheme ++ d)
          build_plugin := kwRustPlugin
          location := none
          sources := rust_files
          build_dependencies := [kwRustCompiler]
          kind := kwRustLibraryKind
          extras := extras
          hash := 1010 }

/-! ## Concrete inputs used by witnesses and counterexamples -/

def ctxEmpty : Context :=
  { start_time := 0, lockfile := [], cache_dir := [], target := none, target_hash := none,
    logs := [], config := [], hash := 0 }

/-- A context describing a unix platform (`TargetFamily = "unix"`). -/
def ctxUnix : Context :=
  { ctxEmpty with config := [(BuildConfigKey.TargetFamily, kwUnix)] }

def winKey : String := "x86_64-pc-windows-gnu"

def winDep : String := "winapi"

def cfgWinKey : String := "cfg(windows)"

def winDepsVal : Toml :=
  Toml.table [(kwDependencies, Toml.table [(winDep, Toml.str (r"0.3"))])]

/-- A manifest whose only platform table is keyed by a plain target triple
(no `cfg(...)` wrapper). -/
def manifestWinTriple : List (String × Toml) :=
  [(kwTarget, Toml.table [(winKey, winDepsVal)])]

/-- A manifest with one mandatory dependency and one `cfg(windows)` table. -/
def manifestCfgWin : List (String × Toml) :=
  [(kwDependencies, Toml.table [(r"foo", Toml.str (r"1"))]),
   (kwTarget, Toml.table [(cfgWinKey, winDepsVal)])]

def strFoo : String := "foo"

def featBar : String := "bar"

def depBazEntry : String := "dep:baz"

def uriFoo : String := "cargo://foo"

def uriBaz : String := "cargo://baz"

def targetThing : String := "cargo://thing"

def lockThing : String := "0.1.0,bar"

/-- The end-to-end manifest of testable property 7:
`[dependencies] foo = "1"` and `[features] bar = ["dep:baz"]`. -/
def manifestC3 : List (String × Toml) :=
  [(kwDependencies, Toml.table [(strFoo, Toml.str (r"1"))]),
   (kwFeatures, Toml.table [(featBar, Toml.arr [Toml.str depBazEntry])])]

def ctxLock : Context :=
  { ctxEmpty with lockfile := [(targetThing, lockThing)] }

/-- The configuration `CargoResolver::resolve` produces on `manifestC3`. -/
def c3Config : Config :=
  { dependencies := [uriFoo, uriBaz], build_plugin := kwRustPlugin, location := none,
    sources := [], build_dependencies := [kwRustCompiler], kind := kwRustLibraryKind,
    extras := [(ConfigExtraKeys.Features, [featBar])], hash := 1010 }

def xStr : String := "x"

def bStr : String := "b"

/-- A manifest where the name `x` is simultaneously a declared feature and a
mandatory dependency, and the enabled feature `b` lists the entry `x`. -/
def manifestC4 : List (String × Toml) :=
  [(kwDependencies, Toml.table [(xStr, Toml.str (r"1"))]),
   (kwFeatures, Toml.table [(xStr, Toml.arr []), (bStr, Toml.arr [Toml.str xStr])])]

/-- Requirement entries of feature `b` in `manifestC4`, extracted the same
way the walk does. -/
def c4bEntries : List Toml :=
  match tomlLookup manifestC4 kwFeatures with
  | some (Toml.table t) =>
    match tomlLookup t bStr with
    | some (Toml.arr l) => l
    | _ => []
  | _ => []

def cacheRootDir : List String := [r"cache"]

def serdeTarget : String := "cargo://serde"

def ctxSerdeNoHash : Context :=
  { ctxEmpty with
    lockfile := [(serdeTarget, r"1.0.0")]
    cache_dir := cacheRootDir
    target := some serdeTarget }

def ctxSerdeHash : Context :=
  { ctxSerdeNoHash with target_hash := some 0xdead }

/-- Same cache-relevant fields as `ctxSerdeHash`, different log store. -/
def ctxSerdeHashLogs : Context :=
  { ctxSerdeHash with logs := [(serdeTarget, [])] }

def serdeResolveComp : String := "cargo___serde-1.0.0"

def serdeBuildComp : String := "cargo___serde-dead"

def tColl1 : String := "a:b"

def tColl2 : String := "a/b"

def ctxColl1 : Context :=
  { ctxEmpty with
    cache_dir := cacheRootDir
    target := some tColl1
    target_hash := some 1 }

def ctxColl2 : Context :=
  { ctxEmpty with
    cache_dir := cacheRootDir
    target := some tColl2
    target_hash := some 1 }

def noLockTarget : String := "cargo://nolock"

def ctxNoLock : Context :=
  { ctxEmpty with cache_dir := cacheRootDir, target := some noLockTarget }

/-! ## Helper lemmas -/

theorem strAppendEmptyHelper (s : String) : s ++ emptyStr = s := by
  cases s with
  | mk d =>
    show String.mk (d ++ []) = String.mk d
    rw [List.append_nil]

theorem mergedAux_spec (rs : List BuildResult) :
    ∀ outs, mergedAux outs rs =
      match rs.find? BuildResult.isFailure with
      | some f => f
      | none =>
        BuildResult.Success { outputs := outs ++ (rs.map BuildResult.outputsOf).flatten, extras := [] } := by
  induction rs with
  | nil => intro outs; simp [mergedAux]
  | cons r rest ih =>
    intro outs
    cases r with
    | Success o =>
      have hf : BuildResult.isFailure (BuildResult.Success o) = false := rfl
      simp only [mergedAux, List.find?, hf, List.map, BuildResult.outputsOf, List.flatten, ih]
      cases h : rest.find? BuildResult.isFailure with
      | none => simp [List.append_assoc]
      | some f => simp
    | Failure m =>
      have hf : BuildResult.isFailure (BuildResult.Failure m) = true := rfl
      simp [mergedAux, List.find?, hf]

/-! ## Claim C6: the task status state machine -/

/-- Claim C6: for every Task, `status` is `Done` iff `result` is set (checked
first); with no result, `Resolving` iff `config` is absent; with a config and
no result, `Blocked` iff fewer dependencies are ready than exist, else
`Building`. -/
theorem c6_task_status_states (t : Task) :
    (t.status = TaskStatus.Done ↔ t.result.isSome = true)
  ∧ (t.status = TaskStatus.Resolving ↔ (t.result = none ∧ t.config = none))
  ∧ (t.status = TaskStatus.Blocked ↔
      (t.result = none ∧ t.config.isSome = true ∧ t.dependencies_ready < t.dependencies.length))
  ∧ (t.status = TaskStatus.Building ↔
      (t.result = none ∧ t.config.isSome = true ∧ t.dependencies.length ≤ t.dependencies_ready)) := by
  rcases t with ⟨i, deps, tgt, cfg, res, av, rdy⟩
  cases res <;> cases cfg <;> by_cases h : rdy < deps.length <;>
    simp [Task.status, h, Nat.le_of_not_lt, Nat.not_le_of_lt]

/-! ## Claim C7: merging build results -/

/-- Claim C7: `BuildResult::merged` returns the first Failure of the sequence
verbatim when one exists, and otherwise a Success concatenating every input's
outputs in input order, carrying no extras. -/
theorem c7_merged_first_failure (rs : List BuildResult) :
    BuildResult.merged rs =
      match rs.find? BuildResult.isFailure with
      | some f => f
      | none =>
        BuildResult.Success { outputs := (rs.map BuildResult.outputsOf).flatten, extras := [] } := by
  have h := mergedAux_spec rs []
  simpa [BuildResult.merged] using h

/-! ## Claim C9: with_target frame -/

/-- Claim C9: `Context::with_target` sets only the `target` field of the
clone; every other field — `target_hash` included — keeps the original
context's value. -/
theorem c9_with_target_frame (c : Context) (n : String) :
    (c.with_target n).target = some n
  ∧ (c.with_target n).target_hash = c.target_hash
  ∧ (c.with_target n).start_time = c.start_time
  ∧ (c.with_target n).lockfile = c.lockfile
  ∧ (c.with_target n).cache_dir = c.cache_dir
  ∧ (c.with_target n).logs = c.logs
  ∧ (c.with_target n).config = c.config
  ∧ (c.with_target n).hash = c.hash :=
  ⟨rfl, rfl, rfl, rfl, rfl, rfl, rfl, rfl⟩

/-! ## Claim C10: missing lockfile entry during path computation -/

/-- Claim C10: with a target bound, no hash, and no lockfile entry for the
target, `working_directory` and `scratch_dir` return normally, silently
substituting the empty string for the locked version and producing a path
whose last component ends in a dash. -/
theorem c10_missing_lock_empty_version (c : Context) (t : String)
    (htgt : c.target = some t) (hh : c.target_hash = none)
    (hlk : List.lookup t c.lockfile = none) :
    c.working_directory = some (c.cache_dir ++ [kwResolve, to_dir t ++ dashStr])
  ∧ c.scratch_dir = some (c.cache_dir ++ [kwResolve, kwScratch, to_dir t ++ dashStr]) := by
  have hv : (c.get_locked_version t).getD emptyStr = emptyStr := by
    simp [Context.get_locked_version, hlk]
  constructor
  · simp [Context.working_directory, htgt, hh, hv, strAppendEmptyHelper]
  · simp [Context.scratch_dir, htgt, hh, hv, strAppendEmptyHelper]

/-- Witness for claim C10 at a concrete context with an empty lockfile. -/
theorem c10_witness :
    ctxNoLock.working_directory =
      some (ctxNoLock.cache_dir ++ [kwResolve, to_dir noLockTarget ++ dashStr])
  ∧ ctxNoLock.scratch_dir =
      some (ctxNoLock.cache_dir ++ [kwResolve, kwScratch, to_dir noLockTarget ++ dashStr]) :=
  c10_missing_lock_empty_version ctxNoLock noLockTarget rfl rfl rfl

/-! ## Claim C2: the hash placeholder of a freshly resolved Config -/

/-- Counterexample to claim C2: a successful `CargoResolver::resolve` whose
returned configuration has hash 1010, not the claimed zero. -/
theorem c2_counterexample :
    (CargoResolver.resolve ctxLock targetThing manifestC3 []).toOption.map Config.hash =
      some 1010
  ∧ ((1010 : Nat) == 0) = false :=
  ⟨rfl, rfl⟩

/-- Claim C2 as amended: every successful `CargoResolver::resolve` returns a
Config whose hash field is the fixed placeholder 1010, pending the later
two-pass `Config::calculate_hash` computation. -/
theorem c2_hash_placeholder (context : Context) (target : String)
    (manifest : List (String × Toml)) (rust_files : List String) (config : Config)
    (h : CargoResolver.resolve context target manifest rust_files = Except.ok config) :
    config.hash = 1010 := by
  unfold CargoResolver.resolve at h
  cases hs : stripCargoScheme target <;> rw [hs] at h
  · simp at h
  · cases hl : context.get_locked_version target <;> rw [hl] at h
    · simp at h
    · simp only [Except.ok.injEq] at h
      subst h
      rfl

/-- Witness for claim C2 at the concrete end-to-end resolution. -/
theorem c2_witness : c3Config.hash = 1010 :=
  c2_hash_placeholder ctxLock targetThing manifestC3 [] c3Config rfl

/-! ## Claim C3: end-to-end resolution of the example manifest -/

/-- Claim C3: resolving `cargo://thing` against the manifest
`[dependencies] foo = "1"`, `[features] bar = ["dep:baz"]` with locked string
`"0.1.0,bar"` yields dependencies containing the URI forms of `foo` and `baz`
with `foo` before `baz`, and extras at the Features key equal to `["bar"]`. -/
theorem c3_end_to_end :
    CargoResolver.resolve ctxLock targetThing manifestC3 [] = Except.ok c3Config
  ∧ c3Config.dependencies = [uriFoo, uriBaz]
  ∧ uriFoo ∈ c3Config.dependencies
  ∧ uriBaz ∈ c3Config.dependencies
  ∧ c3Config.dependencies.indexOf uriFoo < c3Config.dependencies.indexOf uriBaz
  ∧ List.lookup ConfigExtraKeys.Features c3Config.extras = some [featBar] := by
  refine ⟨rfl, rfl, ?_, ?_, ?_, rfl⟩ <;> decide

/-! ## Claim C5: error substitution in Config::calculate_hash -/

/-- Claim C5: during `Config::calculate_hash`, a file that fails to open
contributes the fixed sentinel `12 34` and computation moves to the next
file; a failed chunk read contributes the different fixed sentinel `56 78`
and the loop issues the same read call again on the same file instead of
advancing; the computation is total over all file outcomes, and the result is
the big-endian `u64` of the digest's leading eight bytes, stored into the
config's hash field and returned. -/
theorem c5_calculate_hash_error_substitution (c : Config) (ch dh : Nat)
    (fs : String → FileAccess) :
    (c.calculate_hash ch dh fs).1 =
      u64be (List.take 8 (sha256 (beBytes8 ch ++ beBytes8 dh ++ sourcesBytes c.sources fs)))
  ∧ (c.calculate_hash ch dh fs).2.hash = (c.calculate_hash ch dh fs).1
  ∧ (c.calculate_hash ch dh fs).2 = { c with hash := (c.calculate_hash ch dh fs).1 }
  ∧ (∀ s rest, sourcesBytes (s :: rest) fs = fileBytes (fs s) ++ sourcesBytes rest fs)
  ∧ fileBytes FileAccess.openErr = [0x12, 0x34]
  ∧ (∀ evs, readLoop (ReadEvent.err :: evs) = [0x56, 0x78] ++ readLoop evs)
  ∧ (([0x12, 0x34] : List Nat) == [0x56, 0x78]) = false := by
  refine ⟨rfl, rfl, rfl, ?_, rfl, ?_, rfl⟩
  · intro s rest
    simp [sourcesBytes]
  · intro evs
    rfl

/-! ## Claim C1: conditional platform dependencies -/

/-- Counterexample to claim C1: on a unix context, a nested per-platform
dependency table keyed by the plain target triple `x86_64-pc-windows-gnu`
(no `cfg(...)` wrapper) contributes its dependency even though the
conditional-directive resolver does not recognize the key (it resolves it to
`Ok(false)`): the gate only applies to keys starting with `cfg(`. -/
theorem c1_counterexample :
    strStarts winKey kwCfgHead = false
  ∧ resolve_cfg_directive ctxUnix winKey = Except.ok false
  ∧ (parse_cargo_toml ctxUnix manifestWinTriple []).dependencies = [winDep] :=
  ⟨rfl, rfl, rfl⟩

/-- Claim C1 as amended: the conditional-directive resolver never errors and
returns true exactly for the directive `unix` on a context whose
`TargetFamily` is `unix` (everything unrecognized or unsatisfied resolves to
false — fail-closed); a target-table entry whose key has the `cfg(...)` form
contributes nothing when its inner directive resolves to false, while a key
not of that form bypasses the resolver and contributes its nested
dependencies unconditionally; consequently, when every target-table key is an
unsatisfied `cfg(...)` condition, the manifest's dependency list is exactly
the top-level mandatory names followed by the feature-derived optional
names. -/
theorem c1_cfg_gating (context : Context) :
    (∀ d, resolve_cfg_directive context d = Except.ok true ∨
      resolve_cfg_directive context d = Except.ok false)
  ∧ (∀ d, resolve_cfg_directive context d = Except.ok true ↔
      (d = kwUnix ∧ context.get_config BuildConfigKey.TargetFamily = some kwUnix))
  ∧ (∀ k v, strStarts k kwCfgHead = true →
      resolve_cfg_directive context (cfgInner k) = Except.ok false →
      targetEntryDeps context k v = none)
  ∧ (∀ k v, strStarts k kwCfgHead = false →
      targetEntryDeps context k v = tableDepsOf v)
  ∧ (∀ (table : List (String × Toml)) (features : List String),
      (∀ kv ∈ targetTables table, strStarts kv.1 kwCfgHead = true ∧
        resolve_cfg_directive context (cfgInner kv.1) = Except.ok false) →
      (parse_cargo_toml context table features).dependencies =
        mandatoryDepNames (depsTableEntries table) ++ featureOptionalDeps table features) := by
  have hgate : ∀ k v, strStarts k kwCfgHead = true →
      resolve_cfg_directive context (cfgInner k) = Except.ok false →
      targetEntryDeps context k v = none := by
    intro k v hs hres
    simp [targetEntryDeps, hs, hres, Except.toOption]
  refine ⟨?_, ?_, hgate, ?_, ?_⟩
  · intro d
    unfold resolve_cfg_directive
    split
    · exact Or.inl rfl
    · exact Or.inr rfl
  · intro d
    unfold resolve_cfg_directive
    split <;> rename_i hcond
    · simp only [Bool.and_eq_true, beq_iff_eq] at hcond
      simp [hcond]
    · simp only [Bool.and_eq_true, beq_iff_eq] at hcond
      constructor
      · intro h
        exact absurd h (by simp)
      · intro h
        exact absurd (by exact ⟨h.1, h.2⟩) hcond
  · intro k v hs
    simp [targetEntryDeps, hs]
  · intro table features hall
    have htgt : targetDepsEntries context table = [] := by
      unfold targetDepsEntries
      rw [List.flatMap_eq_nil_iff]
      intro kv hkv
      rcases hall kv hkv with ⟨h1, h2⟩
      rw [hgate kv.1 kv.2 h1 h2]
      rfl
    unfold parse_cargo_toml
    rw [htgt, List.append_nil]

/-- Witness for claim C1: a `cfg(windows)` table on a unix context is gated
out by the resolver. -/
theorem c1_witness : targetEntryDeps ctxUnix cfgWinKey winDepsVal = none :=
  (c1_cfg_gating ctxUnix).2.2.1 cfgWinKey winDepsVal rfl rfl

/-! ## Claim C4: feature entry classification -/

theorem mem_insertNew (acc : List String) (x s : String) :
    s ∈ insertNew acc x ↔ s ∈ acc ∨ s = x := by
  unfold insertNew
  split <;> rename_i h
  · constructor
    · exact Or.inl
    · rintro (hs | rfl)
      · exact hs
      · simpa using h
  · simp

theorem nodup_insertNew (acc : List String) (x : String) (h : acc.Nodup) :
    (insertNew acc x).Nodup := by
  unfold insertNew
  split <;> rename_i hc
  · exact h
  · have hx : x ∉ acc := by simpa using hc
    simp [List.nodup_append, h, hx]

theorem featureEntryStep_mem (declared acc : List String) (dep : Toml) (s : String) :
    s ∈ featureEntryStep declared acc dep ↔ s ∈ acc ∨ entryYields declared dep s := by
  cases dep with
  | str dname =>
    cases h1 : strStarts dname kwDepColon with
    | true => simp [featureEntryStep, entryYields, h1, mem_insertNew]
    | false =>
      cases h2 : declared.contains dname with
      | true =>
        have h2' : dname ∈ declared := by simpa using h2
        simp [featureEntryStep, entryYields, h1, h2, h2']
      | false =>
        have h2' : dname ∉ declared := by simpa using h2
        cases h3 : strHasSlash dname with
        | true => simp [featureEntryStep, entryYields, h1, h2, h2', h3]
        | false => simp [featureEntryStep, entryYields, h1, h2, h2', h3, mem_insertNew]
  | boolean b => simp [featureEntryStep, entryYields]
  | int n => simp [featureEntryStep, entryYields]
  | table t => simp [featureEntryStep, entryYields]
  | arr l => simp [featureEntryStep, entryYields]

theorem featureEntryStep_nodup (declared acc : List String) (dep : Toml)
    (h : acc.Nodup) : (featureEntryStep declared acc dep).Nodup := by
  cases dep with
  | str dname =>
    simp only [featureEntryStep]
    split
    · exact nodup_insertNew acc _ h
    · split
      · exact h
      · split
        · exact h
        · exact nodup_insertNew acc _ h
  | boolean b => exact h
  | int n => exact h
  | table t => exact h
  | arr l => exact h

theorem foldSteps_mem (declared : List String) (deps : List Toml) :
    ∀ (acc : List String) (s : String),
      s ∈ deps.foldl (featureEntryStep declared) acc ↔
        s ∈ acc ∨ ∃ dep ∈ deps, entryYields declared dep s := by
  induction deps with
  | nil => intro acc s; simp
  | cons d t ih =>
    intro acc s
    simp only [List.foldl_cons]
    rw [ih, featureEntryStep_mem]
    simp [or_assoc]

theorem foldSteps_nodup (declared : List String) (deps : List Toml) :
    ∀ acc : List String, acc.Nodup →
      (deps.foldl (featureEntryStep declared) acc).Nodup := by
  induction deps with
  | nil => intro acc h; exact h
  | cons d t ih =>
    intro acc h
    exact ih _ (featureEntryStep_nodup declared acc d h)

theorem featureOptionalDeps_eq (table : List (String × Toml)) (features : List String) :
    featureOptionalDeps table features =
      (enabledEntries table features).foldl (featureEntryStep (declaredFeatures table)) [] := by
  have general : ∀ (t : List (String × Toml)) (acc : List String),
      t.foldl
        (fun acc kv =>
          if features.contains kv.1 then
            match kv.2 with
            | Toml.arr deps => deps.foldl (featureEntryStep (declaredFeatures table)) acc
            | _ => acc
          else acc)
        acc =
      (t.flatMap (fun kv => if features.contains kv.1 then arrElems kv.2 else [])).foldl
        (featureEntryStep (declaredFeatures table)) acc := by
    intro t
    induction t with
    | nil => intro acc; rfl
    | cons kv rest ih =>
      intro acc
      simp only [List.foldl_cons, List.flatMap_cons, List.foldl_append]
      rw [← ih]
      congr 1
      cases hc : features.contains kv.1 with
      | true => cases kv.2 <;> simp [hc, arrElems]
      | false => simp [hc]
  unfold featureOptionalDeps enabledEntries featuresTableEntries
  cases h : tomlLookup table kwFeatures with
  | none => rfl
  | some v =>
    cases v with
    | table t => exact general t []
    | str s => rfl
    | boolean b => rfl
    | int n => rfl
    | arr l => rfl

/-- Counterexample to claim C4: in `manifestC4` the name `x` is a declared
feature, the enabled feature `b` lists the plain entry `x` (not
`dep:`-prefixed), and yet `x` appears in the parsed dependency list — it
enters through the mandatory `[dependencies]` table, which the feature walk
does not shield. -/
theorem c4_counterexample :
    c4bEntries.map tomlStrVal = [some xStr]
  ∧ declaredFeatures manifestC4 = [xStr, bStr]
  ∧ strStarts xStr kwDepColon = false
  ∧ (parse_cargo_toml ctxEmpty manifestC4 [bStr]).dependencies = [xStr]
  ∧ xStr ∈ (parse_cargo_toml ctxEmpty manifestC4 [bStr]).dependencies := by
  refine ⟨rfl, rfl, rfl, rfl, ?_⟩
  decide

/-- Claim C4 as amended: the optional-dependency contribution of the feature
walk contains exactly the names yielded by walked entries — the stripped
remainder of `dep:`-prefixed entries, and plain entries that name no declared
feature and contain no slash — so an enabled entry that names another
declared feature (and is not `dep:`-prefixed) contributes no optional
dependency itself (though the same name may still reach the dependency list
through the mandatory table or a `dep:`-prefixed entry), an entry containing
a path separator contributes nothing, and the collected optional names are
duplicate-free before being appended to the mandatory list. -/
theorem c4_feature_classification (context : Context) (table : List (String × Toml))
    (features : List String) :
    (∀ s, s ∈ featureOptionalDeps table features ↔
      ∃ dep ∈ enabledEntries table features, entryYields (declaredFeatures table) dep s)
  ∧ (featureOptionalDeps table features).Nodup
  ∧ (parse_cargo_toml context table features).dependencies =
      mandatoryDepNames (depsTableEntries table ++ targetDepsEntries context table) ++
        featureOptionalDeps table features := by
  refine ⟨?_, ?_, rfl⟩
  · intro s
    rw [featureOptionalDeps_eq, foldSteps_mem]
    simp
  · rw [featureOptionalDeps_eq]
    exact foldSteps_nodup _ _ [] List.nodup_nil

/-- Witness for claim C4 at the end-to-end manifest: the optional-name list
is duplicate-free and the parsed dependency list splits into mandatory names
followed by it. -/
theorem c4_witness :
    (featureOptionalDeps manifestC3 [featBar]).Nodup
  ∧ (parse_cargo_toml ctxLock manifestC3 [featBar]).dependencies =
      mandatoryDepNames (depsTableEntries manifestC3 ++ targetDepsEntries ctxLock manifestC3) ++
        featureOptionalDeps manifestC3 [featBar] :=
  (c4_feature_classification ctxLock manifestC3 [featBar]).2

/-! ## Claim C8: the cache path contract -/

theorem hexAux_lt : ∀ (fuel n d : Nat), d ∈ hexAux fuel n → d < 16 := by
  intro fuel
  induction fuel with
  | zero => intro n d h; simp [hexAux] at h
  | succ f ih =>
    intro n d h
    cases n with
    | zero => simp [hexAux] at h
    | succ m =>
      simp only [hexAux, List.mem_cons] at h
      rcases h with h | h
      · subst h; exact Nat.mod_lt _ (by norm_num)
      · exact ih _ _ h

theorem unhex_hexAux : ∀ (fuel n : Nat), n ≤ fuel → unhexLE (hexAux fuel n) = n := by
  intro fuel
  induction fuel with
  | zero =>
    intro n h
    have h0 : n = 0 := Nat.le_zero.mp h
    subst h0
    rfl
  | succ f ih =>
    intro n h
    cases n with
    | zero => rfl
    | succ m =>
      have hdiv : (m + 1) / 16 ≤ f := by
        have h1 : (m + 1) / 16 < m + 1 := Nat.div_lt_self (Nat.succ_pos m) (by norm_num)
        omega
      show unhexLE ((m + 1) % 16 :: hexAux f ((m + 1) / 16)) = m + 1
      show (m + 1) % 16 + 16 * unhexLE (hexAux f ((m + 1) / 16)) = m + 1
      rw [ih _ hdiv]
      exact Nat.mod_add_div (m + 1) 16

theorem charToDigit_hexDigitChar : ∀ d : Nat, d < 16 → charToDigit (hexDigitChar d) = d := by
  decide

theorem mapRoundHex (l : List Nat) (h : ∀ d ∈ l, d < 16) :
    (l.map hexDigitChar).map charToDigit = l := by
  induction l with
  | nil => rfl
  | cons a t ih =>
    simp only [List.map_cons, List.cons.injEq]
    exact ⟨charToDigit_hexDigitChar a (h a (by simp)), ih (fun d hd => h d (by simp [hd]))⟩

theorem hexDigitsLE_roundtrip (n : Nat) : unhexLE (hexDigitsLE n) = n :=
  unhex_hexAux n n le_rfl

theorem hexStr_inj (m n : Nat) (h : hexStr m = hexStr n) : m = n := by
  by_cases hm : m = 0 <;> by_cases hn : n = 0
  · rw [hm, hn]
  · exfalso
    apply hn
    have h' : String.mk ['0'] = String.mk (((hexDigitsLE n).map hexDigitChar).reverse) := by
      simpa [hexStr, hm, hn] using h
    have hl : ['0'] = ((hexDigitsLE n).map hexDigitChar).reverse := by injection h'
    have hl2 : (hexDigitsLE n).map hexDigitChar = ['0'] := by
      have := congrArg List.reverse hl
      simpa using this.symm
    have hzero : List.map charToDigit ['0'] = [0] := by decide
    have hd : hexDigitsLE n = [0] := by
      have hc := congrArg (List.map charToDigit) hl2
      rw [mapRoundHex (hexDigitsLE n) (fun d hd => hexAux_lt n n d hd), hzero] at hc
      exact hc
    have hr := hexDigitsLE_roundtrip n
    rw [hd] at hr
    simpa [unhexLE] using hr.symm
  · exfalso
    apply hm
    have h' : String.mk ['0'] = String.mk (((hexDigitsLE m).map hexDigitChar).reverse) := by
      simpa [hexStr, hm, hn] using h.symm
    have hl : ['0'] = ((hexDigitsLE m).map hexDigitChar).reverse := by injection h'
    have hl2 : (hexDigitsLE m).map hexDigitChar = ['0'] := by
      have := congrArg List.reverse hl
      simpa using this.symm
    have hzero : List.map charToDigit ['0'] = [0] := by decide
    have hd : hexDigitsLE m = [0] := by
      have hc := congrArg (List.map charToDigit) hl2
      rw [mapRoundHex (hexDigitsLE m) (fun d hd => hexAux_lt m m d hd), hzero] at hc
      exact hc
    have hr := hexDigitsLE_roundtrip m
    rw [hd] at hr
    simpa [unhexLE] using hr.symm
  · have h' : String.mk (((hexDigitsLE m).map hexDigitChar).reverse) =
        String.mk (((hexDigitsLE n).map hexDigitChar).reverse) := by
      simpa [hexStr, hm, hn] using h
    have hrev : ((hexDigitsLE m).map hexDigitChar).reverse =
        ((hexDigitsLE n).map hexDigitChar).reverse := by injection h'
    have hmap : (hexDigitsLE m).map hexDigitChar = (hexDigitsLE n).map hexDigitChar := by
      have := congrArg List.reverse hrev
      simpa using this
    have hdig : hexDigitsLE m = hexDigitsLE n := by
      have hc := congrArg (List.map charToDigit) hmap
      rwa [mapRoundHex (hexDigitsLE m) (fun d hd => hexAux_lt m m d hd),
        mapRoundHex (hexDigitsLE n) (fun d hd => hexAux_lt n n d hd)] at hc
    have h1 := hexDigitsLE_roundtrip m
    have h2 := hexDigitsLE_roundtrip n
    rw [← h1, ← h2, hdig]

theorem strDataAppend (a b : String) : (a ++ b).data = a.data ++ b.data := by
  cases a
  cases b
  rfl

theorem strAppendCancelLeft (a b c : String) (h : a ++ b = a ++ c) : b = c := by
  have hd : a.data ++ b.data = a.data ++ c.data := by
    rw [← strDataAppend, ← strDataAppend, h]
  have hbc : b.data = c.data := List.append_cancel_left hd
  cases b
  cases c
  exact congrArg String.mk hbc

/-- Counterexample to claim C8: the sanitization of `to_dir` maps the
distinct targets `a:b` and `a/b` to the same directory name, so two distinct
(target, hash) pairs share both their working and scratch directories. -/
theorem c8_counterexample :
    (tColl1 == tColl2) = false
  ∧ ctxColl1.working_directory = ctxColl2.working_directory
  ∧ ctxColl1.scratch_dir = ctxColl2.scratch_dir := by
  refine ⟨rfl, ?_, ?_⟩ <;> decide

/-- Claim C8 as amended: `working_directory` and `scratch_dir` are pure
functions of the cache root, the target, the bound hash, and the lockfile
(hence the locked version); the two concrete layouts of the claim hold
(`cargo://serde` sanitizes to `cargo___serde`, locked version `1.0.0` with no
hash gives `resolve/cargo___serde-1.0.0`, hash `0xdead` gives
`build/cargo___serde-dead`); and for a fixed target, distinct hashes give
distinct paths — but distinct targets may collide after sanitization, as the
counterexample shows, so injectivity over all (target, hash) pairs fails. -/
theorem c8_path_contract :
    ctxSerdeNoHash.working_directory =
      some (ctxSerdeNoHash.cache_dir ++ [kwResolve, serdeResolveComp])
  ∧ ctxSerdeHash.working_directory =
      some (ctxSerdeHash.cache_dir ++ [kwBuild, serdeBuildComp])
  ∧ (∀ c c' : Context, c.target = c'.target → c.target_hash = c'.target_hash →
      c.cache_dir = c'.cache_dir → c.lockfile = c'.lockfile →
      c.working_directory = c'.working_directory ∧ c.scratch_dir = c'.scratch_dir)
  ∧ (∀ (c c' : Context) (t : String) (h1 h2 : Nat), c.target = some t →
      c'.target = some t → c.target_hash = some h1 → c'.target_hash = some h2 →
      c.cache_dir = c'.cache_dir → c.working_directory = c'.working_directory →
      h1 = h2)
  ∧ (∀ (c c' : Context) (t : String) (h1 h2 : Nat), c.target = some t →
      c'.target = some t → c.target_hash = some h1 → c'.target_hash = some h2 →
      c.cache_dir = c'.cache_dir → c.scratch_dir = c'.scratch_dir →
      h1 = h2) := by
  refine ⟨by decide, by decide, ?_, ?_, ?_⟩
  · intro c c' h1 h2 h3 h4
    constructor
    · simp [Context.working_directory, Context.get_locked_version, h1, h2, h3, h4]
    · simp [Context.scratch_dir, Context.get_locked_version, h1, h2, h3, h4]
  · intro c c' t h1 h2 ht ht' hh hh' hcd heq
    simp only [Context.working_directory, ht, ht', hh, hh', hcd, Option.some.injEq] at heq
    have hlast : [kwBuild, to_dir t ++ dashStr ++ hexStr h1] =
        [kwBuild, to_dir t ++ dashStr ++ hexStr h2] := List.append_cancel_left heq
    have hstr : to_dir t ++ dashStr ++ hexStr h1 = to_dir t ++ dashStr ++ hexStr h2 := by
      simpa using hlast
    exact hexStr_inj h1 h2 (strAppendCancelLeft _ _ _ hstr)
  · intro c c' t h1 h2 ht ht' hh hh' hcd heq
    simp only [Context.scratch_dir, ht, ht', hh, hh', hcd, Option.some.injEq] at heq
    have hlast : [kwBuild, kwScratch, to_dir t ++ dashStr ++ hexStr h1] =
        [kwBuild, kwScratch, to_dir t ++ dashStr ++ hexStr h2] := List.append_cancel_left heq
    have hstr : to_dir t ++ dashStr ++ hexStr h1 = to_dir t ++ dashStr ++ hexStr h2 := by
      simpa using hlast
    exact hexStr_inj h1 h2 (strAppendCancelLeft _ _ _ hstr)

/-- Witness for claim C8: purity at concrete contexts differing only in the
log store, via the theorem's purity conjunct. -/
theorem c8_witness :
    ctxSerdeHashLogs.working_directory = ctxSerdeHash.working_directory
  ∧ ctxSerdeHashLogs.scratch_dir = ctxSerdeHash.scratch_dir :=
  c8_path_contract.2.2.1 ctxSerdeHashLogs ctxSerdeHash rfl rfl rfl rfl

end Cbs
